import Mathlib

/-!
Shallow embedding of `scripts/text_editing_stable_diffusion.py`
(blended latent diffusion text-guided image editing).

Tensors are modelled as total functions from an index type to `ℚ`
(half-precision floats modelled as exact rationals); the batch dimension
is modelled as a `List` of such tensors.  The pretrained collaborators
(VAE, UNet, text encoder, DDIM scheduler, torch RNG) are opaque fields of
a `Models` structure: the script treats them as black boxes.
-/

/-- Index type of one latent sample: (channel, row, column).
The latent mask `[1, 1, 64, 64]` broadcasts over batch and channel. -/
abbrev Idx : Type := ℕ × ℕ × ℕ

/-- A single tensor (one batch element), as a total map from indices to values. -/
abbrev Tensor (ι : Type) : Type := ι → ℚ

/-- The all-zero tensor (used as an out-of-range default for list lookups). -/
def tzero {ι : Type} : Tensor ι := fun _ => 0

/-- Python truncating conversion `int(q)` (rounds toward zero). -/
def pyInt (q : ℚ) : ℤ := if 0 ≤ q then ⌊q⌋ else ⌈q⌉

/-- Python values that the `--morph` argparse option can take:
`argparse` with `type=str, default=False` yields either the `bool` default
`False` or the supplied command-line `str`. -/
inductive PyVal where
  | bool : Bool → PyVal
  | str : String → PyVal
deriving DecidableEq

/-- Python `==` restricted to the values above: `bool == bool` and
`str == str` compare contents; a `str` never equals a `bool`. -/
def pyEq : PyVal → PyVal → Bool
  | PyVal.bool a, PyVal.bool b => a == b
  | PyVal.str a, PyVal.str b => a == b
  | _, _ => false

/-- `parser.add_argument("--morph", type=str, default=False)` (line 48):
an absent flag keeps the default `False : bool`; any supplied value is a string. -/
def parse_morph_arg : Option String → PyVal
  | none => PyVal.bool false
  | some s => PyVal.str s

/-! ### `_read_mask` (lines 205-216)

The input models `np.array` of the mask image after `convert("L")` and
`resize(dest_size, NEAREST)`: a grid of 8-bit pixel values. -/

/-- `np.max` over a grid of naturals. -/
def np_max (m : List (List ℕ)) : ℕ :=
  m.foldl (fun a row => row.foldl max a) 0

/-- `if np.max(mask) > 1: mask = np.array(mask) / 255` (lines 209-210):
normalize to rationals, dividing by 255 only when some pixel exceeds 1. -/
def normalize_mask (m : List (List ℕ)) : List (List ℚ) :=
  if 1 < np_max m then m.map (fun row => row.map (fun (v : ℕ) => (v : ℚ) / 255))
  else m.map (fun row => row.map (fun (v : ℕ) => (v : ℚ)))

/-- `mask[mask < 0.5] = 0` (line 211). -/
def assign_lt_half (m : List (List ℚ)) : List (List ℚ) :=
  m.map (fun row => row.map (fun v => if v < 1/2 then 0 else v))

/-- `mask[mask >= 0.5] = 1` (line 212). -/
def assign_ge_half (m : List (List ℚ)) : List (List ℚ) :=
  m.map (fun row => row.map (fun v => if 1/2 ≤ v then 1 else v))

/-- The two in-place threshold assignments of `_read_mask`, in program order. -/
def threshold05 (m : List (List ℚ)) : List (List ℚ) :=
  assign_ge_half (assign_lt_half m)

/-- Value part of `_read_mask` (lines 208-212): normalize, then threshold at 0.5.
(The trailing `[np.newaxis, np.newaxis]` reshape and device/dtype moves are
shape plumbing, modelled by `mask_tensor_of_grid` below.) -/
def read_mask_latent (m : List (List ℕ)) : List (List ℚ) :=
  threshold05 (normalize_mask m)

/-- The `[1, 1, H, W]` mask tensor broadcast against a `[B, C, H, W]` latent:
lookup by (row, column), ignoring the channel coordinate. -/
def mask_tensor_of_grid (g : List (List ℚ)) : Tensor Idx :=
  fun p => (g.getD p.2.1 []).getD p.2.2 0

/-! ### `morph_dilation` (lines 175-192)

`cv2` morphology on the squeezed single-channel mask.  The mask grid is
modelled as a total function `ℤ → ℤ → ℚ` (cv2's border handling is absorbed
by the infinite extent; the masks fed to it are 0/1-valued, for which
`foldl max 0` / `foldl min 1` compute the true window extrema). -/

/-- Offsets covered by a `k × k` structuring element of ones, anchored at the
kernel center `(k / 2, k / 2)` (the cv2 default anchor `(-1, -1)`). -/
def window_offsets (k : ℕ) : List ℤ :=
  (List.range k).map (fun j => (j : ℤ) - (k / 2 : ℕ))

/-- The values of `m` in the `k × k` window anchored at `(x, y)`. -/
def window_values (m : ℤ → ℤ → ℚ) (k : ℕ) (x y : ℤ) : List ℚ :=
  (window_offsets k).flatMap (fun dx => (window_offsets k).map (fun dy => m (x + dx) (y + dy)))

/-- `cv2.dilate` with a `k × k` all-ones kernel: window maximum. -/
def dilate (m : ℤ → ℤ → ℚ) (k : ℕ) : ℤ → ℤ → ℚ :=
  fun x y => (window_values m k x y).foldl max 0

/-- `cv2.erode` with a `k × k` all-ones kernel: window minimum. -/
def erode (m : ℤ → ℤ → ℚ) (k : ℕ) : ℤ → ℤ → ℚ :=
  fun x y => (window_values m k x y).foldl min 1

/-- `cv2.morphologyEx(mask, cv2.MORPH_CLOSE, kernel)`: dilate then erode. -/
def morph_close (m : ℤ → ℤ → ℚ) (k : ℕ) : ℤ → ℤ → ℚ :=
  erode (dilate m k) k

/-- `kernel_size = int(dilation_init * i / threshold)` (line 186).
For the magnitudes reachable here the float64 division is exact enough that
Python's `int(...)` truncation agrees with natural floor division. -/
def dilation_kernel_size (dilation_init i threshold : ℕ) : ℕ :=
  dilation_init * i / threshold

/-- `morph_dilation` (lines 175-192).  `none` models the Python
`ZeroDivisionError` raised by `int(dilation_init * i / threshold)` when
`threshold == 0`; there is no other failure point. -/
def morph_dilation (mask : ℤ → ℤ → ℚ) (i threshold dilation_init : ℕ) :
    Option (ℤ → ℤ → ℚ) :=
  let closed := morph_close mask 1
  if i < threshold then
    some (erode closed 2)
  else if threshold = 0 then
    none
  else
    some (dilate closed (dilation_kernel_size dilation_init i threshold))

/-- `latent_mask.squeeze().cpu().numpy()` (line 154): the 64×64 grid of the
static latent mask, as a function on `ℤ × ℤ` (0 outside the grid). -/
def morph_input_of_grid (g : List (List ℚ)) : ℤ → ℤ → ℚ :=
  fun x y => if 0 ≤ x ∧ 0 ≤ y then (g.getD x.toNat []).getD y.toNat 0 else 0

/-- `torch.from_numpy(latent_mask)[None, None, :, :]` (lines 190-191):
the morphed grid reshaped to `[1, 1, H, W]` and broadcast like the static mask. -/
def morph_mask_tensor (m : ℤ → ℤ → ℚ) : Tensor Idx :=
  fun p => m (p.2.1 : ℤ) (p.2.2 : ℤ)

/-! ### The pretrained collaborators (`load_models`, lines 52-66)

Frozen model components and the torch RNG, treated as opaque deterministic
functions, exactly as the script treats them. -/

/-- The black boxes the script calls into.  `torchRng seed k` is the `k`-th
standard-normal tensor drawn from the global torch generator after
`torch.manual_seed seed`. -/
structure Models (ι κ : Type) where
  vae_encode : (ℕ → ℚ) → Tensor ι
  vae_decode : List (Tensor ι) → List (Tensor ι)
  text_encoder : String → κ
  unet : List (Tensor ι) → ℤ → List κ → List (Tensor ι)
  set_timesteps : ℕ → List ℤ
  scale_model_input : List (Tensor ι) → ℤ → List (Tensor ι)
  sched_step : List (Tensor ι) → ℤ → List (Tensor ι) → List (Tensor ι)
  add_noise : Tensor ι → Tensor ι → ℤ → Tensor ι

/-- State of the torch global generator: the draw stream fixed by the last
`manual_seed`, and how many tensors have been drawn from it so far. -/
structure RngState (ι : Type) where
  stream : ℕ → Tensor ι
  ctr : ℕ

/-- `torch.manual_seed seed` (line 78): resets the global generator,
discarding whatever state it held. -/
def manual_seed {ι : Type} (rngOf : ℕ → ℕ → Tensor ι) (seed : ℕ)
    (_ambient : RngState ι) : RngState ι :=
  ⟨rngOf seed, 0⟩

/-! ### `edit_image` (lines 68-172) -/

/-- `_image2latent` (lines 195-203): scale pixels to `[-1, 1]`
(`/ 127.5 - 1`), encode, and multiply by the latent scale `0.18215`. -/
def image2latent {ι κ : Type} (M : Models ι κ) (pixels : ℕ → ℚ) : Tensor ι :=
  fun j => M.vae_encode (fun p => pixels p / (255/2) - 1) j * (18215/100000)

/-- Text conditioning (lines 88-105): encode the prompts, encode one
empty-string prompt per batch element (`[""] * batch_size`), and concatenate
`torch.cat([uncond_embeddings, text_embeddings])` — unconditional rows first. -/
def build_text_embeddings {κ : Type} (text_encoder : String → κ)
    (prompts : List String) : List κ :=
  let text_embeddings := prompts.map text_encoder
  let uncond_embeddings := (List.replicate prompts.length "").map text_encoder
  uncond_embeddings ++ text_embeddings

/-- `torch.chunk(x, 2)`: split a batch into its first and second half. -/
def chunk2 {α : Type} (l : List α) : List α × List α :=
  (l.take ((l.length + 1) / 2), l.drop ((l.length + 1) / 2))

/-- Classifier-free guidance (lines 139-142): split the joint prediction,
then `noise_pred_uncond + guidance_scale * (noise_pred_text - noise_pred_uncond)`
pointwise per batch element. -/
def perform_guidance {ι : Type} (noise_pred : List (Tensor ι))
    (guidance_scale : ℚ) : List (Tensor ι) :=
  let p := chunk2 noise_pred
  List.zipWith (fun u c => fun j => u j + guidance_scale * (c j - u j)) p.1 p.2

/-- Lines 126-145: double the batch, scale the model input, run the UNet with
the `[uncond; cond]` embeddings, apply guidance, and take one scheduler step,
yielding the candidate (pre-blend) latents for this iteration. -/
def candidate_latents {ι κ : Type} (M : Models ι κ) (text_embeddings : List κ)
    (guidance_scale : ℚ) (t : ℤ) (latents : List (Tensor ι)) : List (Tensor ι) :=
  let latent_model_input := latents ++ latents
  let latent_model_input := M.scale_model_input latent_model_input t
  let noise_pred := M.unet latent_model_input t text_embeddings
  let noise_pred := perform_guidance noise_pred guidance_scale
  M.sched_step noise_pred t latents

/-- Lines 158-160: `scheduler.add_noise(source_latents, torch.randn_like(latents), t)`:
re-noise the original source latents with fresh draws, one per batch element. -/
def noised_source_list {ι κ : Type} (M : Models ι κ) (source_latents : Tensor ι)
    (rng : ℕ → Tensor ι) (ctr batch : ℕ) (t : ℤ) : List (Tensor ι) :=
  (List.range batch).map (fun b => M.add_noise source_latents (rng (ctr + b)) t)

/-- Line 161: `latents * latent_mask + noise_source_latents * (1 - latent_mask)`,
elementwise over the batch, the mask broadcast over batch and channel. -/
def blend_latents {ι : Type} (latents : List (Tensor ι)) (latent_mask : Tensor ι)
    (noise_source_latents : List (Tensor ι)) : List (Tensor ι) :=
  List.zipWith (fun cand ns => fun j => cand j * latent_mask j + ns j * (1 - latent_mask j))
    latents noise_source_latents

/-- Lines 148-155: re-read the mask from the mask image every iteration, and
morph it only when `self.args.morph == True` (a Python `==` against the
boolean `True`).  `none` propagates the `ZeroDivisionError` of `morph_dilation`. -/
def step_mask (maskGrid : List (List ℕ)) (morphArg : PyVal)
    (i threshold dilation_init : ℕ) : Option (Tensor Idx) :=
  let latent_mask := read_mask_latent maskGrid
  if pyEq morphArg (PyVal.bool true) then
    (morph_dilation (morph_input_of_grid latent_mask) i threshold dilation_init).map
      morph_mask_tensor
  else
    some (mask_tensor_of_grid latent_mask)

/-- Loop-carried state: the current latent batch and the RNG draw counter. -/
structure DState (ι : Type) where
  latents : List (Tensor ι)
  ctr : ℕ

/-- One iteration of the denoising loop (lines 122-161), at enumeration index
`i` and timestep `t`.  `source_latents` is the encoder output bound at
line 86, outside the loop. -/
def denoise_step {κ : Type} (M : Models Idx κ) (text_embeddings : List κ)
    (guidance_scale : ℚ) (source_latents : Tensor Idx)
    (maskGrid : List (List ℕ)) (morphArg : PyVal)
    (threshold dilation_init : ℕ) (rng : ℕ → Tensor Idx)
    (i : ℕ) (t : ℤ) (s : DState Idx) : Option (DState Idx) :=
  let cand := candidate_latents M text_embeddings guidance_scale t s.latents
  match step_mask maskGrid morphArg i threshold dilation_init with
  | none => none
  | some latent_mask =>
      let noise_source_latents := noised_source_list M source_latents rng s.ctr cand.length t
      some ⟨blend_latents cand latent_mask noise_source_latents, s.ctr + cand.length⟩

/-- The whole `for i, t in enumerate(...)` loop, with a raised exception
(`none`) aborting the remaining iterations. -/
def denoise_loop {κ : Type} (M : Models Idx κ) (text_embeddings : List κ)
    (guidance_scale : ℚ) (source_latents : Tensor Idx)
    (maskGrid : List (List ℕ)) (morphArg : PyVal)
    (threshold dilation_init : ℕ) (rng : ℕ → Tensor Idx)
    (steps : List (ℕ × ℤ)) (s0 : DState Idx) : Option (DState Idx) :=
  steps.foldl
    (fun acc it => acc.bind
      (denoise_step M text_embeddings guidance_scale source_latents maskGrid morphArg
        threshold dilation_init rng it.1 it.2))
    (some s0)

/-- Lines 122-124: the timestep suffix actually iterated,
`scheduler.timesteps[int(len(timesteps) * blending_percentage):]`
(modelled for the CLI contract `blending_percentage ≥ 0`). -/
def processed_timesteps {κ : Type} (M : Models Idx κ)
    (num_inference_steps : ℕ) (blending_percentage : ℚ) : List ℤ :=
  let timesteps := M.set_timesteps num_inference_steps
  timesteps.drop (pyInt ((timesteps.length : ℚ) * blending_percentage)).toNat

/-- Line 107-111: `torch.randn((batch_size, C, h/8, w/8), generator)`,
one fresh tensor per batch element from the generator's stream. -/
def initial_latents {ι : Type} (batch_size : ℕ) (gen : RngState ι) : List (Tensor ι) :=
  (List.range batch_size).map (fun b => gen.stream (gen.ctr + b))

/-- Line 163: `latents = 1 / 0.18215 * latents`. -/
def unscale_latents {ι : Type} (l : List (Tensor ι)) : List (Tensor ι) :=
  l.map (fun x => fun j => 1 / (18215/100000 : ℚ) * x j)

/-- Lines 168-170: `(image / 2 + 0.5).clamp(0, 1)`, then `* 255` and round to
8-bit integers (numpy's rounding tie convention is immaterial to the claims). -/
def postprocess {ι : Type} (images : List (Tensor ι)) : List (ι → ℤ) :=
  images.map (fun im => fun j => round (min 1 (max 0 (im j / 2 + 1/2)) * 255))

/-- Arguments of one `edit_image` call (paths replaced by the decoded pixel
data they denote; PIL decoding/resizing is an external collaborator). -/
structure EditArgs where
  imagePixels : ℕ → ℚ
  maskGrid : List (List ℕ)
  prompts : List String
  num_inference_steps : ℕ
  guidance_scale : ℚ
  blending_percentage : ℚ
  morphArg : PyVal

/-- `edit_image` (lines 68-172) as a function of its inputs and the generator
state; `none` models an uncaught exception escaping the loop. -/
def edit_image {κ : Type} (M : Models Idx κ) (a : EditArgs)
    (gen : RngState Idx) : Option (List (Idx → ℤ)) :=
  let batch_size := a.prompts.length
  let source_latents := image2latent M a.imagePixels
  let text_embeddings := build_text_embeddings M.text_encoder a.prompts
  let latents0 := initial_latents batch_size gen
  let processed := processed_timesteps M a.num_inference_steps a.blending_percentage
  let threshold := processed.length / 2
  let dilation_init := 5
  match denoise_loop M text_embeddings a.guidance_scale source_latents a.maskGrid
      a.morphArg threshold dilation_init gen.stream processed.enum
      ⟨latents0, gen.ctr + batch_size⟩ with
  | none => none
  | some s => some (postprocess (M.vae_decode (unscale_latents s.latents)))

/-- A whole program run (`__main__`, lines 219-228): the default argument
`generator=torch.manual_seed(42)` reseeds the global generator, so the
pipeline's randomness never depends on the ambient generator state. -/
def run_program {κ : Type} (M : Models Idx κ) (rngOf : ℕ → ℕ → Tensor Idx)
    (a : EditArgs) (ambient : RngState Idx) : Option (List (Idx → ℤ)) :=
  edit_image M a (manual_seed rngOf 42 ambient)

/-! ### Concrete instances used to evaluate the definitions on closed inputs -/

/-- A concrete, fully evaluable instantiation of the black-box collaborators. -/
def tmodels : Models Idx Unit where
  vae_encode := fun _ => tzero
  vae_decode := fun l => l
  text_encoder := fun _ => ()
  unet := fun l _ _ => l
  set_timesteps := fun n => List.replicate n 0
  scale_model_input := fun l _ => l
  sched_step := fun _ _ l => l
  add_noise := fun s _ _ => s

/-- A concrete RNG draw stream. -/
def wstream : ℕ → Tensor Idx := fun _ => tzero

/-- A concrete generator state. -/
def wgen : RngState Idx := ⟨wstream, 0⟩

/-- The constant-1 latent tensor. -/
def tone : Tensor Idx := fun _ => 1

/-- The constant-5 latent tensor (a stand-in source latent). -/
def tfive : Tensor Idx := fun _ => 5

/-- A 1×1 white mask grid. -/
def wmask : List (List ℕ) := [[1]]

/-- A concrete loop state: one batch element, no draws made yet. -/
def wstate : DState Idx := ⟨[tone], 0⟩

/-- The state `denoise_step tmodels [] 2 tfive wmask (PyVal.bool false) 3 5
wstream 0 0 wstate` computes. -/
def wpost : DState Idx :=
  ⟨blend_latents (candidate_latents tmodels ([] : List Unit) 2 0 [tone])
      (mask_tensor_of_grid (read_mask_latent wmask))
      (noised_source_list tmodels tfive wstream 0
        (candidate_latents tmodels ([] : List Unit) 2 0 [tone]).length 0), 1⟩

/-- Arguments with `blending_start_percentage = 1` (degenerate configuration). -/
def wargs : EditArgs where
  imagePixels := fun _ => 0
  maskGrid := wmask
  prompts := ["p"]
  num_inference_steps := 2
  guidance_scale := 15/2
  blending_percentage := 1
  morphArg := PyVal.bool false

/-- Arguments whose schedule suffix has a single timestep (`threshold = 0`)
with morphing enabled programmatically. -/
def margs : EditArgs where
  imagePixels := fun _ => 0
  maskGrid := wmask
  prompts := ["p"]
  num_inference_steps := 1
  guidance_scale := 15/2
  blending_percentage := 0
  morphArg := PyVal.bool true

/-- The all-zero morphology input grid. -/
def zero_mask2 : ℤ → ℤ → ℚ := fun _ _ => 0

/-- A 64×64 all-black 8-bit mask image (the default `_read_mask` size). -/
def all_zero_64 : List (List ℕ) := List.replicate 64 (List.replicate 64 0)

/-! ### Helper lemmas -/

theorem get?_zipWith {α β γ : Type} (f : α → β → γ) :
    ∀ (l1 : List α) (l2 : List β) (n : ℕ),
      (List.zipWith f l1 l2).get? n = (l1.get? n).bind (fun a => (l2.get? n).map (f a)) := by
  intro l1
  induction l1 with
  | nil => intro l2 n; cases l2 <;> cases n <;> rfl
  | cons a l1 ih =>
      intro l2 n
      cases l2 with
      | nil => cases n <;> simp [List.zipWith]
      | cons b l2 => cases n with
        | zero => rfl
        | succ n => simpa using ih l2 n

theorem getD_eq_of_get? {α : Type} {l : List α} {n : ℕ} {a d : α}
    (h : l.get? n = some a) : l.getD n d = a := by
  rw [List.getD_eq_get?, h]; rfl

theorem get?_replicate_lt {α : Type} (a : α) : ∀ (n k : ℕ), k < n →
    (List.replicate n a).get? k = some a := by
  intro n
  induction n with
  | zero => intro k hk; omega
  | succ n ih =>
      intro k hk
      cases k with
      | zero => rfl
      | succ k => exact ih k (by omega)

theorem threshold05_pointwise (m : List (List ℚ)) :
    threshold05 m
      = m.map (fun row => row.map
          (fun v => if 1/2 ≤ (if v < 1/2 then 0 else v) then 1 else if v < 1/2 then 0 else v)) := by
  simp only [threshold05, assign_ge_half, assign_lt_half, List.map_map]
  exact List.map_congr_left (fun row _ => by simp [Function.comp, List.map_map])

/-! ### Claim theorems -/

/-- C10: the 0.5 thresholding step of `_read_mask` (lines 211-212) is
idempotent: on a mask whose elements are already all 0 or 1 it is the
identity, and applying it twice always equals applying it once. -/
theorem threshold05_idempotent_on_binary (m : List (List ℚ))
    (hbin : ∀ row ∈ m, ∀ v ∈ row, v = 0 ∨ v = 1) :
    threshold05 m = m ∧
      ∀ m' : List (List ℚ), threshold05 (threshold05 m') = threshold05 m' := by
  have hfix : ∀ m₀ : List (List ℚ), (∀ row ∈ m₀, ∀ v ∈ row, v = 0 ∨ v = 1) →
      threshold05 m₀ = m₀ := by
    intro m₀ hb
    rw [threshold05_pointwise]
    have h1 : ∀ row ∈ m₀,
        row.map (fun v => if 1/2 ≤ (if v < 1/2 then 0 else v) then 1
          else if v < 1/2 then 0 else v) = id row := by
      intro row hrow
      have h2 : ∀ v ∈ row, (fun v => if 1/2 ≤ (if v < 1/2 then 0 else v) then 1
          else if v < 1/2 then 0 else v) v = id v := by
        intro v hv
        rcases hb row hrow v hv with h | h <;> subst h <;> norm_num
      simpa using List.map_congr_left h2
    simpa using List.map_congr_left h1
  have hout : ∀ m' : List (List ℚ), ∀ row ∈ threshold05 m', ∀ v ∈ row, v = 0 ∨ v = 1 := by
    intro m' row hr v hv
    rw [threshold05_pointwise] at hr
    rcases List.mem_map.mp hr with ⟨row0, _, hrow⟩
    subst hrow
    rcases List.mem_map.mp hv with ⟨w, _, hw⟩
    subst hw
    by_cases h : w < 1/2
    · left
      simp only [if_pos h]
      norm_num
    · right
      simp only [if_neg h, if_pos (le_of_not_lt h)]
  exact ⟨hfix m hbin, fun m' => hfix (threshold05 m') (hout m')⟩

/-- Witness for C10 at the concrete binary mask `[[0,1],[1,0]]`. -/
theorem threshold05_idempotent_on_binary_witness :
    (∀ row ∈ [[(0:ℚ),1],[1,0]], ∀ v ∈ row, v = 0 ∨ v = 1) ∧
      (threshold05 [[(0:ℚ),1],[1,0]] = [[0,1],[1,0]] ∧
        ∀ m' : List (List ℚ), threshold05 (threshold05 m') = threshold05 m') :=
  ⟨by decide, threshold05_idempotent_on_binary [[0,1],[1,0]] (by decide)⟩

/-- C9 (amended): every element of the latent mask produced by `_read_mask`'s
normalization-and-threshold stage is 0 or 1, for every 8-bit grid. -/
theorem read_mask_values_binary (m : List (List ℕ)) (row : List ℚ) (v : ℚ)
    (hr : row ∈ read_mask_latent m) (hv : v ∈ row) : v = 0 ∨ v = 1 := by
  rw [read_mask_latent, threshold05_pointwise] at hr
  rcases List.mem_map.mp hr with ⟨row0, _, hrow⟩
  subst hrow
  rcases List.mem_map.mp hv with ⟨w, _, hw⟩
  subst hw
  by_cases h : w < 1/2
  · left
    simp only [if_pos h]
    norm_num
  · right
    simp only [if_neg h, if_pos (le_of_not_lt h)]

/-- Witness for C9's amended theorem at the grid `[[0, 200]]` (normalized by
255 and thresholded to `[[0, 1]]`). -/
theorem read_mask_values_binary_witness :
    ([(0:ℚ), 1] ∈ read_mask_latent [[0, 200]] ∧ (1:ℚ) ∈ [(0:ℚ), 1]) ∧
      ((1:ℚ) = 0 ∨ (1:ℚ) = 1) := by
  have h : read_mask_latent [[0, 200]] = [[0, 1]] := by
    rw [read_mask_latent, normalize_mask, if_pos (by norm_num [np_max])]
    norm_num [threshold05, assign_lt_half, assign_ge_half]
  refine ⟨⟨?_, ?_⟩, read_mask_values_binary [[0, 200]] [0, 1] 1 ?_ ?_⟩ <;> simp [h]

/-- C9 (counterexample): for the all-black 64×64 mask, the thresholded latent
mask holds the single value 0, so it is false that exactly two distinct
values (0 and 1) occur for every 8-bit mask image. -/
theorem read_mask_all_black_single_value :
    read_mask_latent all_zero_64 = List.replicate 64 (List.replicate 64 (0:ℚ)) ∧
      ¬ ∃ row ∈ read_mask_latent all_zero_64, (1:ℚ) ∈ row := by
  have hrow : ∀ (k a : ℕ), List.foldl max a (List.replicate k 0) = a := by
    intro k
    induction k with
    | zero => intro a; rfl
    | succ k ih => intro a; simpa [List.replicate] using ih a
  have hmax : np_max all_zero_64 = 0 := by
    have : ∀ (n a : ℕ),
        List.foldl (fun a row => row.foldl max a) a (List.replicate n (List.replicate 64 0)) = a := by
      intro n
      induction n with
      | zero => intro a; rfl
      | succ n ih => intro a; simpa [List.replicate, hrow] using ih a
    simpa [np_max, all_zero_64] using this 64 0
  have h : read_mask_latent all_zero_64 = List.replicate 64 (List.replicate 64 (0:ℚ)) := by
    rw [read_mask_latent, normalize_mask, hmax, if_neg (by norm_num), threshold05_pointwise]
    simp only [all_zero_64, List.map_replicate, Nat.cast_zero]
    norm_num
  refine ⟨h, ?_⟩
  rw [h]
  rintro ⟨row, hrow, hv⟩
  rw [List.eq_of_mem_replicate hrow] at hv
  rcases List.eq_of_mem_replicate hv with h10
  norm_num at h10

/-- C7: `--morph` is parsed with `type=str, default=False` (line 48), so for
every command-line invocation — whether the flag is absent (the boolean
default `False`) or given any string, including `"True"` — the loop condition
`self.args.morph == True` (line 151) is false and the per-step mask is always
the unmorphed `_read_mask` output; only the programmatic boolean `True`
satisfies the condition. -/
theorem cli_morph_never_enabled : ∀ cli : Option String,
    pyEq (parse_morph_arg cli) (PyVal.bool true) = false
    ∧ (∀ (maskGrid : List (List ℕ)) (i threshold d : ℕ),
        step_mask maskGrid (parse_morph_arg cli) i threshold d
          = some (mask_tensor_of_grid (read_mask_latent maskGrid)))
    ∧ pyEq (PyVal.bool true) (PyVal.bool true) = true := by
  intro cli
  cases cli <;> exact ⟨rfl, fun _ _ _ _ => rfl, rfl⟩

/-- C5: with `dilation_init = 5` and the loop's threshold `total / 2`, any
step index below the threshold erodes with the fixed 2×2 element, any index
at or above it dilates with side length `⌊5 * i / threshold⌋`, and that side
length is monotone over the dilation phase. -/
theorem dilation_kernel_monotone_in_phase (m : ℤ → ℤ → ℚ)
    (total threshold i1 i2 : ℕ) (hth : threshold = total / 2)
    (h12 : i1 < i2) (h2 : i2 < total) (h1 : threshold ≤ i1) :
    morph_dilation m i1 threshold 5
        = some (dilate (morph_close m 1) (dilation_kernel_size 5 i1 threshold))
    ∧ morph_dilation m i2 threshold 5
        = some (dilate (morph_close m 1) (dilation_kernel_size 5 i2 threshold))
    ∧ dilation_kernel_size 5 i1 threshold ≤ dilation_kernel_size 5 i2 threshold
    ∧ ∀ j, j < threshold → morph_dilation m j threshold 5
        = some (erode (morph_close m 1) 2) := by
  have htpos : 0 < threshold := by
    subst hth
    have : 2 ≤ total := by omega
    omega
  refine ⟨?_, ?_, ?_, ?_⟩
  · rw [morph_dilation, if_neg (by omega), if_neg (by omega)]
  · rw [morph_dilation, if_neg (by omega), if_neg (by omega)]
  · exact Nat.div_le_div_right (Nat.mul_le_mul_left 5 (le_of_lt h12))
  · intro j hj
    rw [morph_dilation, if_pos hj]

/-- Witness for C5 with `total = 4`, `threshold = 2`, indices 2 < 3. -/
theorem dilation_kernel_monotone_in_phase_witness :
    ((2:ℕ) = 4 / 2 ∧ (2:ℕ) < 3 ∧ (3:ℕ) < 4 ∧ (2:ℕ) ≤ 2) ∧
      (morph_dilation zero_mask2 2 2 5
          = some (dilate (morph_close zero_mask2 1) (dilation_kernel_size 5 2 2))
        ∧ morph_dilation zero_mask2 3 2 5
          = some (dilate (morph_close zero_mask2 1) (dilation_kernel_size 5 3 2))
        ∧ dilation_kernel_size 5 2 2 ≤ dilation_kernel_size 5 3 2
        ∧ ∀ j, j < 2 → morph_dilation zero_mask2 j 2 5
          = some (erode (morph_close zero_mask2 1) 2)) :=
  ⟨⟨by decide, by decide, by decide, by decide⟩,
    dilation_kernel_monotone_in_phase zero_mask2 4 2 2 3 (by decide) (by decide)
      (by decide) (by decide)⟩

/-- C6 (counterexample): nothing guards the dilation-phase kernel
computation against `threshold = 0`.  A one-timestep suffix makes the loop
setup produce `threshold = 1 // 2 = 0`, and then `morph_dilation` raises
`ZeroDivisionError` at step index 0 (modelled as `none`); with morphing
enabled the whole edit aborts. -/
theorem morph_threshold_zero_raises :
    (1:ℕ) / 2 = 0
    ∧ morph_dilation zero_mask2 0 ((1:ℕ)/2) 5 = none
    ∧ edit_image tmodels margs wgen = none := by
  refine ⟨rfl, rfl, ?_⟩
  have hp : processed_timesteps tmodels 1 0 = [0] := by
    rw [processed_timesteps]
    norm_num [tmodels, pyInt]
  simp only [edit_image, margs, hp]
  norm_num [denoise_loop, denoise_step, step_mask, pyEq, morph_dilation,
    List.enum, List.enumFrom, Option.bind]

/-- C6 (amended): whenever the loop-setup threshold is positive,
`morph_dilation` never raises; in the dilation phase the computed kernel
side length is at least `dilation_init = 5`, so a zero-sized kernel never
arises there and no guard is needed.  (The unguarded failure is exactly
`threshold = 0`, i.e. a processed-timestep suffix shorter than 2.) -/
theorem morph_dilation_safe_pos_threshold (m : ℤ → ℤ → ℚ) (i threshold : ℕ)
    (h : 1 ≤ threshold) :
    (morph_dilation m i threshold 5).isSome = true
    ∧ (threshold ≤ i →
        morph_dilation m i threshold 5
          = some (dilate (morph_close m 1) (dilation_kernel_size 5 i threshold))
        ∧ 5 ≤ dilation_kernel_size 5 i threshold) := by
  constructor
  · rw [morph_dilation]
    by_cases hi : i < threshold
    · rw [if_pos hi]; rfl
    · rw [if_neg hi, if_neg (by omega)]; rfl
  · intro hit
    refine ⟨by rw [morph_dilation, if_neg (by omega), if_neg (by omega)], ?_⟩
    rw [dilation_kernel_size]
    rw [Nat.le_div_iff_mul_le (by omega)]
    calc 5 * threshold ≤ 5 * i := Nat.mul_le_mul_left 5 hit
    _ = 5 * i := rfl

/-- Witness for C6's amended theorem at `threshold = 1`, `i = 2`. -/
theorem morph_dilation_safe_pos_threshold_witness :
    (1:ℕ) ≤ 1 ∧
      ((morph_dilation zero_mask2 2 1 5).isSome = true
        ∧ ((1:ℕ) ≤ 2 →
            morph_dilation zero_mask2 2 1 5
              = some (dilate (morph_close zero_mask2 1) (dilation_kernel_size 5 2 1))
            ∧ 5 ≤ dilation_kernel_size 5 2 1)) :=
  ⟨by decide, morph_dilation_safe_pos_threshold zero_mask2 2 1 (by decide)⟩

/-- C8: the editing pipeline is a pure function of its inputs and the seed:
two program runs from arbitrary (different) ambient torch generator states
produce identical outputs, because `torch.manual_seed(42)` resets the
generator before any draw and every random draw in the pipeline (initial
noise and the per-step `randn_like`) comes from that reseeded stream. -/
theorem run_determinism {κ : Type} (M : Models Idx κ) (rngOf : ℕ → ℕ → Tensor Idx)
    (a : EditArgs) (amb1 amb2 : RngState Idx) :
    run_program M rngOf a amb1 = run_program M rngOf a amb2 := rfl

/-- C4: the loop iterates exactly over the suffix of the schedule starting at
index `⌊len * blending_percentage⌋` (for the CLI contract `percentage ≥ 0`),
and whenever `blending_percentage ≥ 1` the suffix is empty, the loop body
never runs, and the output is the decoding of the raw initial noise latents
scaled by `1 / 0.18215` — no error is raised. -/
theorem blending_start_suffix_and_degenerate {κ : Type} (M : Models Idx κ)
    (a : EditArgs) (gen : RngState Idx) (h : 1 ≤ a.blending_percentage) :
    (∀ bp' : ℚ, 0 ≤ bp' → processed_timesteps M a.num_inference_steps bp'
        = (M.set_timesteps a.num_inference_steps).drop
            (Int.toNat ⌊((M.set_timesteps a.num_inference_steps).length : ℚ) * bp'⌋))
    ∧ processed_timesteps M a.num_inference_steps a.blending_percentage = []
    ∧ edit_image M a gen
        = some (postprocess (M.vae_decode (unscale_latents
            (initial_latents a.prompts.length gen)))) := by
  have h1 : ∀ bp' : ℚ, 0 ≤ bp' → processed_timesteps M a.num_inference_steps bp'
      = (M.set_timesteps a.num_inference_steps).drop
          (Int.toNat ⌊((M.set_timesteps a.num_inference_steps).length : ℚ) * bp'⌋) := by
    intro bp' hbp
    rw [processed_timesteps, pyInt, if_pos (mul_nonneg (Nat.cast_nonneg _) hbp)]
  have hempty : processed_timesteps M a.num_inference_steps a.blending_percentage = [] := by
    rw [h1 _ (le_trans zero_le_one h)]
    apply List.drop_eq_nil_of_le
    have hfl : ((M.set_timesteps a.num_inference_steps).length : ℤ)
        ≤ ⌊((M.set_timesteps a.num_inference_steps).length : ℚ) * a.blending_percentage⌋ := by
      rw [Int.le_floor]
      push_cast
      exact le_mul_of_one_le_right (Nat.cast_nonneg _) h
    exact (Int.le_toNat (le_trans (Int.natCast_nonneg _) hfl)).mpr hfl
  refine ⟨h1, hempty, ?_⟩
  simp only [edit_image, hempty]
  simp [denoise_loop, List.enum, List.enumFrom]

/-- Witness for C4 at the concrete collaborators `tmodels` and arguments with
`blending_start_percentage = 1`. -/
theorem blending_start_suffix_and_degenerate_witness :
    (1:ℚ) ≤ wargs.blending_percentage ∧
      ((∀ bp' : ℚ, 0 ≤ bp' → processed_timesteps tmodels wargs.num_inference_steps bp'
          = (tmodels.set_timesteps wargs.num_inference_steps).drop
              (Int.toNat ⌊((tmodels.set_timesteps wargs.num_inference_steps).length : ℚ) * bp'⌋))
        ∧ processed_timesteps tmodels wargs.num_inference_steps wargs.blending_percentage = []
        ∧ edit_image tmodels wargs wgen
            = some (postprocess (tmodels.vae_decode (unscale_latents
                (initial_latents wargs.prompts.length wgen))))) :=
  ⟨by norm_num [wargs], blending_start_suffix_and_degenerate tmodels wargs wgen (by norm_num [wargs])⟩

/-- C3: with `N = len(prompts)`, the concatenated text conditioning has the
`N` unconditional (empty-string) embeddings first and the `N` prompt
embeddings last, and the guidance step splits a `2N`-row prediction into
halves in that same order and combines them pointwise as
`uncond + guidance_scale * (cond - uncond)`. -/
theorem embedding_order_matches_guidance_split {ι κ : Type} (enc : String → κ)
    (prompts : List String) (k : ℕ) (hk : k < prompts.length) (gs : ℚ)
    (pred : List (Tensor ι)) (hlen : pred.length = 2 * prompts.length) :
    (build_text_embeddings enc prompts).length = 2 * prompts.length
    ∧ (build_text_embeddings enc prompts).get? k = some (enc "")
    ∧ (build_text_embeddings enc prompts).get? (prompts.length + k)
        = (prompts.get? k).map enc
    ∧ ∀ j : ι, ((perform_guidance pred gs).getD k tzero) j
        = (pred.getD k tzero) j
          + gs * ((pred.getD (prompts.length + k) tzero) j - (pred.getD k tzero) j) := by
  have hulen : ((List.replicate prompts.length "").map enc).length = prompts.length := by
    simp
  refine ⟨?_, ?_, ?_, ?_⟩
  · simp [build_text_embeddings]
    ring
  · rw [build_text_embeddings, List.get?_append (by rw [hulen]; exact hk),
      List.get?_map, get?_replicate_lt _ _ _ hk]
    rfl
  · rw [build_text_embeddings, List.get?_append_right (by rw [hulen]; omega),
      hulen, Nat.add_sub_cancel_left, List.get?_map]
  · have hchunk : (pred.length + 1) / 2 = prompts.length := by omega
    have htake : (pred.take ((pred.length + 1) / 2)).get? k = pred.get? k := by
      rw [hchunk]
      exact List.get?_take hk
    have hdrop : (pred.drop ((pred.length + 1) / 2)).get? k
        = pred.get? (prompts.length + k) := by
      rw [hchunk, List.get?_drop]
    have hpk : pred.get? k = some (pred.getD k tzero) := by
      rw [List.getD_eq_get?]
      cases hx : pred.get? k with
      | none => exact absurd (List.get?_eq_none.mp hx) (by omega)
      | some u => rfl
    have hpnk : pred.get? (prompts.length + k) = some (pred.getD (prompts.length + k) tzero) := by
      rw [List.getD_eq_get?]
      cases hx : pred.get? (prompts.length + k) with
      | none => exact absurd (List.get?_eq_none.mp hx) (by omega)
      | some u => rfl
    have hg : (perform_guidance pred gs).get? k
        = some (fun j => (pred.getD k tzero) j
            + gs * ((pred.getD (prompts.length + k) tzero) j - (pred.getD k tzero) j)) := by
      rw [perform_guidance, chunk2, get?_zipWith, htake, hdrop, hpk, hpnk]
      rfl
    intro j
    rw [getD_eq_of_get? hg]

/-- Witness for C3 with one prompt, a length-2 prediction whose halves are
the constant tensors 1 and 3, and scale 2: the guided value is
`1 + 2 * (3 - 1)`. -/
theorem embedding_order_matches_guidance_split_witness :
    ((0:ℕ) < ["a"].length
      ∧ [(fun _ => (1:ℚ) : Tensor Unit), (fun _ => (3:ℚ))].length = 2 * ["a"].length)
    ∧ ((build_text_embeddings (fun _ => ()) ["a"]).length = 2 * ["a"].length
      ∧ (build_text_embeddings (fun _ => ()) ["a"]).get? 0 = some ()
      ∧ (build_text_embeddings (fun _ => ()) ["a"]).get? (["a"].length + 0)
          = (["a"].get? 0).map (fun _ => ())
      ∧ ∀ j : Unit,
          ((perform_guidance [(fun _ => (1:ℚ) : Tensor Unit), (fun _ => (3:ℚ))] 2).getD 0 tzero) j
            = (([(fun _ => (1:ℚ) : Tensor Unit), (fun _ => (3:ℚ))].getD 0 tzero) j
              + 2 * (([(fun _ => (1:ℚ) : Tensor Unit), (fun _ => (3:ℚ))].getD (["a"].length + 0) tzero) j
                - ([(fun _ => (1:ℚ) : Tensor Unit), (fun _ => (3:ℚ))].getD 0 tzero) j))) :=
  ⟨⟨by decide, rfl⟩,
    embedding_order_matches_guidance_split (fun _ => ()) ["a"] 0 (by decide) 2
      [(fun _ => (1:ℚ)), (fun _ => (3:ℚ))] rfl⟩

theorem denoise_step_eq {κ : Type} (M : Models Idx κ) (temb : List κ) (gs : ℚ)
    (src : Tensor Idx) (maskGrid : List (List ℕ)) (morphArg : PyVal)
    (threshold d : ℕ) (rng : ℕ → Tensor Idx) (i : ℕ) (t : ℤ) (s : DState Idx) :
    denoise_step M temb gs src maskGrid morphArg threshold d rng i t s
      = (step_mask maskGrid morphArg i threshold d).map (fun latent_mask =>
          ⟨blend_latents (candidate_latents M temb gs t s.latents) latent_mask
              (noised_source_list M src rng s.ctr
                (candidate_latents M temb gs t s.latents).length t),
            s.ctr + (candidate_latents M temb gs t s.latents).length⟩) := by
  rw [denoise_step]
  cases step_mask maskGrid morphArg i threshold d <;> rfl

/-- C2: whenever an iteration of the denoising loop completes, its blended
latents use, on the unmasked side, exactly
`scheduler.add_noise(source_latents, fresh_noise, t)` applied to the original
source latent `src` — the encoder output bound before the loop, which the
loop state (previous blended latents and draw counter) never contains or
overwrites; the previous iteration's latents enter only through the
candidate (generated) side. -/
theorem renoise_uses_original_source {κ : Type} (M : Models Idx κ) (temb : List κ)
    (gs : ℚ) (src : Tensor Idx) (maskGrid : List (List ℕ)) (morphArg : PyVal)
    (threshold d : ℕ) (rng : ℕ → Tensor Idx) (i : ℕ) (t : ℤ) (s s' : DState Idx)
    (hstep : denoise_step M temb gs src maskGrid morphArg threshold d rng i t s = some s') :
    ∃ latent_mask, step_mask maskGrid morphArg i threshold d = some latent_mask
      ∧ s'.latents = blend_latents (candidate_latents M temb gs t s.latents) latent_mask
          (noised_source_list M src rng s.ctr
            (candidate_latents M temb gs t s.latents).length t)
      ∧ s'.ctr = s.ctr + (candidate_latents M temb gs t s.latents).length
      ∧ ∀ b, b < (candidate_latents M temb gs t s.latents).length →
          (noised_source_list M src rng s.ctr
              (candidate_latents M temb gs t s.latents).length t).get? b
            = some (M.add_noise src (rng (s.ctr + b)) t) := by
  rw [denoise_step_eq] at hstep
  cases hm : step_mask maskGrid morphArg i threshold d with
  | none => rw [hm] at hstep; exact absurd hstep (by simp)
  | some latent_mask =>
      rw [hm] at hstep
      simp only [Option.map_some', Option.some.injEq] at hstep
      refine ⟨latent_mask, rfl, ?_, ?_, ?_⟩
      · rw [← hstep]
      · rw [← hstep]
      · intro b hb
        rw [noised_source_list, List.get?_map, List.get?_range hb]
        rfl

/-- Witness for C2 at the concrete collaborators `tmodels`, step index 1. -/
theorem renoise_uses_original_source_witness :
    denoise_step tmodels ([] : List Unit) 2 tfive wmask (PyVal.bool false) 3 5 wstream 1 0 wstate
        = some wpost
    ∧ ∃ latent_mask, step_mask wmask (PyVal.bool false) 1 3 5 = some latent_mask
      ∧ wpost.latents = blend_latents (candidate_latents tmodels ([] : List Unit) 2 0 wstate.latents)
          latent_mask
          (noised_source_list tmodels tfive wstream wstate.ctr
            (candidate_latents tmodels ([] : List Unit) 2 0 wstate.latents).length 0)
      ∧ wpost.ctr = wstate.ctr + (candidate_latents tmodels ([] : List Unit) 2 0 wstate.latents).length
      ∧ ∀ b, b < (candidate_latents tmodels ([] : List Unit) 2 0 wstate.latents).length →
          (noised_source_list tmodels tfive wstream wstate.ctr
              (candidate_latents tmodels ([] : List Unit) 2 0 wstate.latents).length 0).get? b
            = some (tmodels.add_noise tfive (wstream (wstate.ctr + b)) 0) :=
  ⟨rfl, renoise_uses_original_source tmodels [] 2 tfive wmask (PyVal.bool false) 3 5 wstream 1 0
    wstate wpost rfl⟩

/-- C1: when morphing is off (the CLI case), a completed loop iteration
blends exactly as `candidate * mask + noised_source * (1 - mask)` with the
binary `_read_mask` mask, so wherever the mask is 1 the blended latent equals
the candidate latent exactly, and wherever it is 0 it equals the
noised-source latent exactly. -/
theorem blend_exact_at_mask_boundaries {κ : Type} (M : Models Idx κ) (temb : List κ)
    (gs : ℚ) (src : Tensor Idx) (maskGrid : List (List ℕ)) (morphArg : PyVal)
    (threshold d : ℕ) (rng : ℕ → Tensor Idx) (i : ℕ) (t : ℤ) (s s' : DState Idx)
    (hmorph : pyEq morphArg (PyVal.bool true) = false)
    (_hbin : ∀ p : Idx, mask_tensor_of_grid (read_mask_latent maskGrid) p = 0
        ∨ mask_tensor_of_grid (read_mask_latent maskGrid) p = 1)
    (hstep : denoise_step M temb gs src maskGrid morphArg threshold d rng i t s = some s')
    (b : ℕ) (cand ns : Tensor Idx)
    (hc : (candidate_latents M temb gs t s.latents).get? b = some cand)
    (hn : (noised_source_list M src rng s.ctr
        (candidate_latents M temb gs t s.latents).length t).get? b = some ns)
    (j : Idx) :
    (s'.latents.getD b tzero) j
        = cand j * mask_tensor_of_grid (read_mask_latent maskGrid) j
          + ns j * (1 - mask_tensor_of_grid (read_mask_latent maskGrid) j)
    ∧ (mask_tensor_of_grid (read_mask_latent maskGrid) j = 1 →
        (s'.latents.getD b tzero) j = cand j)
    ∧ (mask_tensor_of_grid (read_mask_latent maskGrid) j = 0 →
        (s'.latents.getD b tzero) j = ns j) := by
  have hsm : step_mask maskGrid morphArg i threshold d
      = some (mask_tensor_of_grid (read_mask_latent maskGrid)) := by
    rw [step_mask, if_neg (by rw [hmorph]; exact Bool.false_ne_true)]
  rw [denoise_step_eq, hsm] at hstep
  simp only [Option.map_some', Option.some.injEq] at hstep
  have hgb : (s'.latents).get? b
      = some (fun p => cand p * mask_tensor_of_grid (read_mask_latent maskGrid) p
          + ns p * (1 - mask_tensor_of_grid (read_mask_latent maskGrid) p)) := by
    rw [← hstep]
    show (blend_latents _ _ _).get? b = _
    rw [blend_latents, get?_zipWith, hc, hn]
    rfl
  rw [getD_eq_of_get? hgb]
  refine ⟨rfl, fun h1 => ?_, fun h0 => ?_⟩
  · show cand j * _ + ns j * (1 - _) = cand j
    rw [h1]
    ring
  · show cand j * _ + ns j * (1 - _) = ns j
    rw [h0]
    ring

/-- Witness for C1 at the concrete collaborators `tmodels` with the white
1×1 mask, evaluated at index (0,0,0) where the mask is 1. -/
theorem blend_exact_at_mask_boundaries_witness :
    (pyEq (PyVal.bool false) (PyVal.bool true) = false
      ∧ denoise_step tmodels ([] : List Unit) 2 tfive wmask (PyVal.bool false) 3 5 wstream 0 0 wstate
          = some wpost
      ∧ (candidate_latents tmodels ([] : List Unit) 2 0 wstate.latents).get? 0 = some tone
      ∧ (noised_source_list tmodels tfive wstream wstate.ctr
          (candidate_latents tmodels ([] : List Unit) 2 0 wstate.latents).length 0).get? 0
          = some tfive)
    ∧ ((wpost.latents.getD 0 tzero) (0, 0, 0)
        = tone (0, 0, 0) * mask_tensor_of_grid (read_mask_latent wmask) (0, 0, 0)
          + tfive (0, 0, 0) * (1 - mask_tensor_of_grid (read_mask_latent wmask) (0, 0, 0))
      ∧ (mask_tensor_of_grid (read_mask_latent wmask) (0, 0, 0) = 1 →
          (wpost.latents.getD 0 tzero) (0, 0, 0) = tone (0, 0, 0))
      ∧ (mask_tensor_of_grid (read_mask_latent wmask) (0, 0, 0) = 0 →
          (wpost.latents.getD 0 tzero) (0, 0, 0) = tfive (0, 0, 0))) := by
  have hm : read_mask_latent wmask = [[1]] := by
    rw [wmask, read_mask_latent, normalize_mask, if_neg (by norm_num [np_max])]
    norm_num [threshold05, assign_lt_half, assign_ge_half]
  have hbin : ∀ p : Idx, mask_tensor_of_grid (read_mask_latent wmask) p = 0
      ∨ mask_tensor_of_grid (read_mask_latent wmask) p = 1 := by
    intro p
    rcases p with ⟨c, y, x⟩
    simp only [mask_tensor_of_grid, hm]
    cases y with
    | zero =>
        cases x with
        | zero => right; rfl
        | succ x => left; rfl
    | succ y => left; rfl
  exact ⟨⟨rfl, rfl, rfl, rfl⟩,
    blend_exact_at_mask_boundaries tmodels [] 2 tfive wmask (PyVal.bool false) 3 5 wstream 0 0
      wstate wpost rfl hbin rfl 0 tone tfive rfl rfl (0, 0, 0)⟩
